import Mathlib

/-!
# Verification of the Hypothesis OAuth client (`hypothesis.js`)

Shallow embedding of the `HypothesisAPIClient` class from `src/hypothesis.js`:

* JavaScript values that can appear in the route table, in cross-window
  message payloads and in JSON responses are modelled by `JVal`.
* Session state (`this.token`, `this.links`) is the structure `State`.
* `request` is `requestFn`, `logout` is `logoutRun`, `login` is `loginRun`
  (parametrised by the outcomes of the two network fetches), the one-shot
  message listener `authRespListener` is `handleMsg`, and `fetchAll` is
  `fetchAllRun` (fuel-indexed, parametrised by the search server's
  behaviour).

Network effects are made explicit: an operation that would perform a fetch
returns the request descriptor it would send (`HttpReq`, `TokenRequest`) or
logs the search calls it issues, so "no network call is performed" is
expressible.
-/

namespace OAuthClient

/-- JavaScript values relevant to `hypothesis.js`: `undefined`, `null`,
booleans, (integer) numbers, strings and plain objects. -/
inductive JVal : Type where
  | vundef : JVal
  | vnull : JVal
  | vbool : Bool → JVal
  | vnum : Int → JVal
  | vstr : String → JVal
  | vobj : List (String × JVal) → JVal
  deriving Inhabited

namespace JVal

/-- Property lookup on an object field list (first binding wins, as in a
JS object literal where later duplicate keys would have overwritten —
route tables and payloads here have distinct keys). -/
def lookupField : List (String × JVal) → String → Option JVal
  | [], _ => none
  | (k, v) :: rest, key => if k = key then some v else lookupField rest key

/-- `v[key]` for a non-nullish base `v`: absent properties give `undefined`;
property access on primitives gives `undefined` (string `.length` etc. are
not used by the client). -/
def getPropD : JVal → String → JVal
  | vobj fields, key => (lookupField fields key).getD vundef
  | _, _ => vundef

/-- JavaScript truthiness: `undefined`, `null`, `false`, `0` and `""` are
falsy, everything else is truthy. -/
def truthy : JVal → Bool
  | vundef => false
  | vnull => false
  | vbool b => b
  | vnum n => n ≠ 0
  | vstr s => s ≠ ""
  | vobj _ => true

/-- JavaScript `typeof`: note `typeof null = "object"`. -/
def jsTypeof : JVal → String
  | vundef => "undefined"
  | vnull => "object"
  | vbool _ => "boolean"
  | vnum _ => "number"
  | vstr _ => "string"
  | vobj _ => "object"

/-- JavaScript string coercion (`String(v)`), as performed by
`URLSearchParams.append` and template literals. -/
def jsToString : JVal → String
  | vundef => "undefined"
  | vnull => "null"
  | vbool true => "true"
  | vbool false => "false"
  | vnum n => toString n
  | vstr s => s
  | vobj _ => "[object Object]"

end JVal

/-- The in-memory session state of a `HypothesisAPIClient` instance:
`serviceUrl` (set by the constructor), `this.token` and `this.links`
(both initialised to `null`). -/
structure State : Type where
  serviceUrl : String
  token : JVal
  links : JVal
  deriving Inhabited

/-- The constructor: `this.token = null; this.links = null`. -/
def initState (serviceUrl : String) : State :=
  { serviceUrl := serviceUrl, token := .vnull, links := .vnull }

/-- Errors `request` can throw before any network call:
* `unknownMethod m` — `throw new Error(\x7bUnknown method $\x7bmethod\x7d\x7d)`;
* `nullRead key` — the `TypeError` from reading property `key` of
  `null`/`undefined` (e.g. `meta[segment]` when `this.links` is `null`);
* `badUrl u` — the `TypeError` from `new URL(u)` when `u` is not a string
  (the model treats every string as a parseable absolute URL). -/
inductive ReqError : Type where
  | unknownMethod : String → ReqError
  | nullRead : String → ReqError
  | badUrl : String → ReqError
  deriving DecidableEq, Repr

/-- The HTTP request descriptor that `request` hands to `fetch`: verb,
base URL, appended query parameters (already string-coerced, in insertion
order), the optional `Authorization` header, and the body. -/
structure HttpReq : Type where
  verb : String
  url : String
  query : List (String × String)
  authHeader : Option String
  body : JVal

/-- Split a list on a separator element; `[[]]` for the empty list, so
that, as with JavaScript `String.prototype.split`, splitting the empty
string yields one empty field. -/
def splitSep {α : Type} [DecidableEq α] (sep : α) : List α → List (List α)
  | [] => [[]]
  | c :: rest =>
    match splitSep sep rest with
    | [] => [[]]
    | h :: t => if c = sep then [] :: h :: t else (c :: h) :: t

/-- JavaScript `method.split('.')`: split the string at every `'.'`,
keeping empty fields. Always returns at least one field. -/
def jsSplitDot (s : String) : List String :=
  (splitSep '.' s.data).map List.asString

/-- `base[key]`: throws a `TypeError` when `base` is `null` or `undefined`,
otherwise yields the property (or `undefined`). -/
def readProp : JVal → String → Except ReqError JVal
  | .vundef, key => .error (.nullRead key)
  | .vnull, key => .error (.nullRead key)
  | v, key => .ok (v.getPropD key)

/-- The `path.forEach` walk of `request`: for each segment, evaluate
`meta[segment]`; if it is falsy, `throw new Error(\x7bUnknown method ...\x7d)`;
otherwise continue with it as the new `meta`. -/
def walkLinks (method : String) : JVal → List String → Except ReqError JVal
  | meta, [] => .ok meta
  | meta, seg :: rest =>
    match readProp meta seg with
    | .error e => .error e
    | .ok v =>
      if v.truthy then walkLinks method v rest
      else .error (.unknownMethod method)

/-- `request(method, data = null, params = \x7b\x7d)` up to the point where it
calls `fetch`: split `method` on `.`, walk `this.links`, build the headers
(`Authorization: Bearer <token>` only if `this.token` is truthy), build the
URL with the query parameters appended, and return the request descriptor.
An `Except.error` result models a thrown exception, i.e. no network call
is performed. -/
def requestFn (s : State) (method : String) (data : JVal)
    (params : List (String × JVal)) : Except ReqError HttpReq :=
  match walkLinks method s.links (jsSplitDot method) with
  | .error e => .error e
  | .ok meta =>
    let authHeader := if s.token.truthy then some ("Bearer " ++ s.token.jsToString) else none
    match readProp meta "url" with
    | .error e => .error e
    | .ok (.vstr u) =>
      .ok { verb := match meta.getPropD "method" with
                    | .vundef => "GET"
                    | v => v.jsToString,
            url := u,
            query := params.map (fun kv => (kv.1, kv.2.jsToString)),
            authHeader := authHeader, body := data }
    | .ok v => .error (.badUrl v.jsToString)

/-- `logout()`: sets `this.token = null; this.links = null`. The second
component is the list of network requests it issues — none: the body is
just the two assignments. -/
def logoutRun (s : State) : State × List HttpReq :=
  ({ s with token := .vnull, links := .vnull }, [])

/-! ## The `login` sequence -/

/-- The form-encoded POST that `login` sends to the token endpoint:
`grant_type=urn:ietf:params:oauth:grant-type:jwt-bearer&assertion=<code>`,
where `code` is string-coerced by `URLSearchParams.append`. -/
structure TokenRequest : Type where
  url : String
  grant_type : String
  assertion : String
  deriving DecidableEq, Repr

/-- The token request built by `login` from the destructured `code` value
of the authorization-response payload. -/
def tokenRequestOf (s : State) (code : JVal) : TokenRequest :=
  { url := s.serviceUrl ++ "/api/token",
    grant_type := "urn:ietf:params:oauth:grant-type:jwt-bearer",
    assertion := code.jsToString }

/-- How a `login` run can fail: a rejected fetch / non-JSON body (`net`),
or a `TypeError` thrown by destructuring or reading a property of a
nullish value (`tyErr`, carrying the property name). -/
inductive LoginErr (ε : Type) : Type where
  | net : ε → LoginErr ε
  | tyErr : String → LoginErr ε

/-- Whether destructuring / reading a property of the value throws a
`TypeError` in JavaScript (`null` and `undefined` do). -/
def nullish : JVal → Bool
  | .vnull => true
  | .vundef => true
  | _ => false

/-- The tail of `login` after the token exchange produced `access_token`:
await the discovery fetch, then run
`this.token = access_token; this.links = links.links` and resolve with
the token. The two assignments run in order: if the discovery JSON is
nullish, `links.links` throws only after `this.token` was assigned. -/
def loginAfterToken {ε : Type} (s : State) (access_token : JVal)
    (discResult : Except ε JVal) : Except (LoginErr ε) JVal × State :=
  match discResult with
  | .error e => (.error (.net e), s)
  | .ok linksJson =>
    if nullish linksJson then (.error (.tyErr "links"), { s with token := access_token })
    else
      (.ok access_token,
       { s with token := access_token, links := linksJson.getPropD "links" })

/-- The tail of `login` after the token-exchange fetch settled:
destructure `access_token` from the exchange's JSON and continue with the
discovery step. -/
def loginAfterExchange {ε : Type} (s : State) (tokenResult : Except ε JVal)
    (discResult : Except ε JVal) : Except (LoginErr ε) JVal × State :=
  match tokenResult with
  | .error e => (.error (.net e), s)
  | .ok tokenJson =>
    if nullish tokenJson then (.error (.tyErr "access_token"), s)
    else loginAfterToken s (tokenJson.getPropD "access_token") discResult

/-- `login` from the moment the authorization-response payload has been
delivered: destructure `code` from the payload (a `TypeError` if the
payload is nullish), send the token request built from it, and continue.
`tokenServer` gives the outcome of the token fetch (as a function of the
request actually sent) and `discResult` the outcome of the discovery
fetch; an `Except.error` models a rejected promise. -/
def loginRun {ε : Type} (s : State) (payload : JVal)
    (tokenServer : TokenRequest → Except ε JVal) (discResult : Except ε JVal) :
    Except (LoginErr ε) JVal × State :=
  if nullish payload then (.error (.tyErr "code"), s)
  else loginAfterExchange s
    (tokenServer (tokenRequestOf s (payload.getPropD "code"))) discResult

/-! ## The one-shot message listener (`authRespListener`) -/

/-- Listener state: whether `authRespListener` is still registered on
`window`, and the payload the `authResponse` promise has resolved with
(if any). -/
structure LState : Type where
  active : Bool
  resolved : Option JVal

/-- The listener right after `window.addEventListener('message', ...)`. -/
def initL : LState := { active := true, resolved := none }

/-- Delivery of one `message` event with payload `d` (= `event.data`):
if the listener is no longer registered nothing happens; if
`typeof event.data !== 'object'` the listener returns early; otherwise it
resolves the promise when `event.data.type === 'authorization_response'`
and then unconditionally removes itself. When `event.data` is `null`
(`typeof null === 'object'`), reading `.type` throws, so the
`removeEventListener` line is never reached. -/
def handleMsg (st : LState) (d : JVal) : LState :=
  if st.active = false then st
  else if d.jsTypeof ≠ "object" then st
  else match d with
    | .vnull => st
    | _ =>
      let matched : Bool := match d.getPropD "type" with
        | .vstr t => t == "authorization_response"
        | _ => false
      { active := false,
        resolved := if matched then some d else st.resolved }

/-- Deliver a sequence of `message` events in order. -/
def processMsgs (st : LState) (msgs : List JVal) : LState :=
  msgs.foldl handleMsg st

/-! ## `fetchAll` -/

/-- The shape `fetchAll` reads off each search response: a `total` count
and a page of `rows`. -/
structure SearchResult (α : Type) : Type where
  total : Nat
  rows : List α

/-- The loop condition `total === null || anns.length < total`. -/
def goOnB (len : Nat) : Option Nat → Bool
  | none => true
  | some t => len < t

/-- The `while (total === null || anns.length < total)` loop of
`fetchAll`, given the search server's behaviour as a function from the
requested offset to the response (each request is
`request('search', null, \x7boffset: anns.length, limit: 1000\x7d)` and is
assumed to resolve). The `fuel` argument bounds the number of iterations
the model is allowed to run: `none` means the loop was still running
after `fuel` rounds. On termination it returns the accumulated rows
together with the `(offset, limit)` pairs of the requests issued, in
order. -/
def fetchAllLoop {α : Type} (server : Nat → SearchResult α) :
    Nat → List α → Option Nat → Option (List α × List (Nat × Nat))
  | 0, _, _ => none
  | fuel + 1, anns, totalSt =>
    if goOnB anns.length totalSt then
      (fetchAllLoop server fuel (anns ++ (server anns.length).rows)
          (some (server anns.length).total)).map
        (fun rc => (rc.1, (anns.length, 1000) :: rc.2))
    else
      some (anns, [])

/-- `fetchAll()`: run the loop from `anns = []`, `total = null`. -/
def fetchAllRun {α : Type} (server : Nat → SearchResult α) (fuel : Nat) :
    Option (List α × List (Nat × Nat)) :=
  fetchAllLoop server fuel [] none

/-! ## Spec-side predicates and concrete fixtures -/

/-- The spec's session invariant: access token and route table are set
together — the token may only be truthy when a route table is held
(the token may legitimately be absent while a table is held, for
anonymous routes). -/
def sessionInv (s : State) : Prop :=
  s.token.truthy = true → s.links.truthy = true

/-- The spec's notion of a dotted method having "at least one segment
absent when walking the table segment by segment": walking the values in
order, some segment evaluates to `undefined`. -/
def segmentAbsent : JVal → List String → Bool
  | _, [] => false
  | meta, seg :: rest =>
    match meta.getPropD seg with
    | .vundef => true
    | v => segmentAbsent v rest

/-- Follows the spec's words for route resolution: "split `method` on `.`;
walk the route table segment by segment", treating the table as a nested
mapping and reaching the leaf by looking each segment up in order. This is
the spec-side definition which `requestFn` (translated from the code) is
compared against. -/
def specFollow : JVal → List String → Option JVal
  | meta, [] => some meta
  | .vobj fields, seg :: rest =>
    match JVal.lookupField fields seg with
    | some v => specFollow v rest
    | none => none
  | _, _ :: _ => none

/-- A small discovered route table, shaped like the service's `/api/`
response `links` field. -/
def routeTable : JVal :=
  .vobj [("profile",
           .vobj [("read",
                    .vobj [("method", .vstr "GET"),
                           ("url", .vstr "https://h.example/api/profile")])]),
         ("search",
           .vobj [("method", .vstr "GET"),
                  ("url", .vstr "https://h.example/api/search")])]

/-- A session that has completed a successful login. -/
def exampleLoggedIn : State :=
  { serviceUrl := "https://h.example", token := .vstr "tok123", links := routeTable }

/-- A cross-window message payload that is an object but not an
authorization response. -/
def msgWrongType : JVal := .vobj [("type", .vstr "other")]

/-- A well-formed authorization-response payload. -/
def msgAuth : JVal :=
  .vobj [("type", .vstr "authorization_response"),
         ("code", .vstr "grant-code"), ("state", .vstr "st")]

/-- An authorization-response payload missing the `code` field. -/
def payloadNoCode : JVal := .vobj [("type", .vstr "authorization_response")]

/-- A search server holding 2500 records (numbered in order) and serving
them in pages of at most 1000 from the requested offset. -/
def server2500 (offset : Nat) : SearchResult Nat :=
  { total := 2500, rows := List.range' offset (min 1000 (2500 - offset)) }

/-- A search server with no records: every response is `total = 0` with an
empty page. -/
def server0 (_ : Nat) : SearchResult Nat :=
  { total := 0, rows := [] }

/-- A search server whose reported `total` always exceeds the requested
offset by 2 while contributing one row per response. -/
def serverGrowingTotal (offset : Nat) : SearchResult Nat :=
  { total := offset + 2, rows := [0] }

/-- A search server that reports a positive total but serves empty pages. -/
def serverEmptyPages (_ : Nat) : SearchResult Nat :=
  { total := 5, rows := [] }

/-- A cooperative token endpoint: every exchange resolves with a JSON body
carrying an access token. -/
def tokenOkServer : TokenRequest → Except Unit JVal :=
  fun _ => .ok (.vobj [("access_token", .vstr "T")])

/-- A successful discovery response carrying the example route table. -/
def discOk : Except Unit JVal := .ok (.vobj [("links", routeTable)])

/-! ## Theorems -/

/-- One continuing iteration of the `fetchAll` loop. -/
theorem fetchAllLoop_cont {α : Type} (server : Nat → SearchResult α)
    (fuel : Nat) (anns : List α) (totalSt : Option Nat)
    (h : goOnB anns.length totalSt = true) :
    fetchAllLoop server (fuel + 1) anns totalSt =
      (fetchAllLoop server fuel (anns ++ (server anns.length).rows)
          (some (server anns.length).total)).map
        (fun rc => (rc.1, (anns.length, 1000) :: rc.2)) := by
  simp [fetchAllLoop, h]

/-- The `fetchAll` loop stops as soon as its condition fails. -/
theorem fetchAllLoop_stop {α : Type} (server : Nat → SearchResult α)
    (fuel : Nat) (anns : List α) (totalSt : Option Nat)
    (h : goOnB anns.length totalSt = false) :
    fetchAllLoop server (fuel + 1) anns totalSt = some (anns, []) := by
  simp [fetchAllLoop, h]

/-- C10: `logout()` clears the in-memory access token and route table,
issues no network request, has no preconditions (it applies to every
state), and composing it with itself gives the same result as running it
once. -/
theorem C10_logout_idempotent (s : State) :
    (logoutRun s).1.token = .vnull ∧ (logoutRun s).1.links = .vnull ∧
    (logoutRun s).2 = [] ∧ logoutRun ((logoutRun s).1) = logoutRun s :=
  ⟨rfl, rfl, rfl, rfl⟩

/-- C8: against a search server whose every response reports `total = 0`,
`fetchAll` returns the empty sequence and issues exactly one request (at
offset 0 with limit 1000). -/
theorem C8_fetchAll_total_zero :
    fetchAllRun server0 10 = some ([], [(0, 1000)]) := rfl

/-- C7: against a search server reporting `total = 2500` and serving its
rows in pages of 1000, `fetchAll` issues exactly 3 requests, at offsets
0, 1000 and 2000 with limit 1000 each, and returns all 2500 records in
the order received. -/
theorem C7_fetchAll_2500 :
    fetchAllRun server2500 10 =
      some (List.range 2500, [(0, 1000), (1000, 1000), (2000, 1000)]) := by
  have m0 : (server2500 0).rows = List.range' 0 1000 := rfl
  have m1 : (server2500 1000).rows = List.range' 1000 1000 := rfl
  have m2 : (server2500 2000).rows = List.range' 2000 500 := rfl
  have t0 : (server2500 0).total = 2500 := rfl
  have t1 : (server2500 1000).total = 2500 := rfl
  have t2 : (server2500 2000).total = 2500 := rfl
  have a01 : List.range' 0 1000 ++ List.range' 1000 1000 = List.range' 0 2000 := by
    simpa using List.range'_append 0 1000 1000 1
  have a02 : List.range' 0 2000 ++ List.range' 2000 500 = List.range' 0 2500 := by
    simpa using List.range'_append 0 2000 500 1
  have l1 : (List.range' 0 1000).length = 1000 := by simp
  have l2 : (List.range' 0 2000).length = 2000 := by simp
  have l3 : (List.range' 0 2500).length = 2500 := by simp
  have g0 : goOnB ([] : List Nat).length none = true := rfl
  have g1 : goOnB (List.range' 0 1000).length (some 2500) = true := by
    simp [goOnB, l1]
  have g2 : goOnB (List.range' 0 2000).length (some 2500) = true := by
    simp [goOnB, l2]
  have g3 : goOnB (List.range' 0 2500).length (some 2500) = false := by
    simp [goOnB, l3]
  rw [fetchAllRun, fetchAllLoop_cont server2500 9 [] none g0]
  simp only [List.length_nil, List.nil_append]
  rw [m0, t0, fetchAllLoop_cont server2500 8 _ _ g1, l1, m1, t1, a01,
      fetchAllLoop_cont server2500 7 _ _ g2, l2, m2, t2, a02,
      fetchAllLoop_stop server2500 6 _ _ g3, List.range_eq_range']
  rfl

/-- C1 counterexample: from the logged-out state, `request("profile.read")`
throws the `TypeError` of reading property `"profile"` of `null`
(`this.links` is `null`), which is not the Unknown Method error the claim
predicts. -/
theorem C1_counterexample :
    requestFn ((logoutRun exampleLoggedIn).1) "profile.read" .vnull [] =
      .error (.nullRead "profile") ∧
    requestFn ((logoutRun exampleLoggedIn).1) "profile.read" .vnull [] ≠
      .error (.unknownMethod "profile.read") := by
  refine ⟨rfl, fun h => ?_⟩
  rw [show requestFn ((logoutRun exampleLoggedIn).1) "profile.read" .vnull [] =
      .error (.nullRead "profile") from rfl] at h
  exact ReqError.noConfusion (Except.error.inj h)

/-- C1 amended: after `logout()` the session holds no token and no route
table, and a subsequent `request(m)` always fails — but with the
`TypeError` of a property read on the `null` route table, not with an
Unknown Method error. -/
theorem C1_logout_request_fails (s : State) (m : String) (d : JVal)
    (ps : List (String × JVal)) :
    (logoutRun s).1.token = .vnull ∧ (logoutRun s).1.links = .vnull ∧
    ∃ key, requestFn ((logoutRun s).1) m d ps = .error (.nullRead key) := by
  refine ⟨rfl, rfl, ?_⟩
  cases h : jsSplitDot m with
  | nil => exact ⟨"url", by simp [requestFn, logoutRun, h, walkLinks, readProp]⟩
  | cons seg rest => exact ⟨seg, by simp [requestFn, logoutRun, h, walkLinks, readProp]⟩

/-- C4 counterexample: with an authorization payload lacking `code`, the
token request that `login` sends carries `assertion = "undefined"`
(`URLSearchParams` string-coerces `undefined`), and against a server that
answers the exchange with JSON, `login` resolves successfully — the
token-exchange step does not fail. -/
theorem C4_counterexample :
    (tokenRequestOf (initState "https://h.example")
        (payloadNoCode.getPropD "code")).assertion = "undefined" ∧
    (loginRun (initState "https://h.example") payloadNoCode
        (fun _ => (.ok (.vobj [("access_token", .vstr "T")]) : Except Unit JVal))
        (.ok (.vobj [("links", routeTable)]))).1 = .ok (.vstr "T") :=
  ⟨rfl, rfl⟩

/-- C4 amended: `login` does not validate the authorization payload: for
every payload whose `code` property is `undefined`, the token request it
sends to the token endpoint carries the literal string `"undefined"` as
the `assertion` parameter (no local failure occurs; the outcome of the
exchange is whatever the server returns). -/
theorem C4_no_code_sends_undefined (s : State) (payload : JVal)
    (h : payload.getPropD "code" = .vundef) :
    (tokenRequestOf s (payload.getPropD "code")).assertion = "undefined" := by
  rw [h]; rfl

/-- Messages whose payload is not a non-null object leave the listener
state untouched: primitives fail the `typeof` guard, and a `null` payload
throws on `event.data.type` before `removeEventListener` is reached. -/
theorem handleMsg_ignored (st : LState) (p : JVal)
    (h : p.jsTypeof ≠ "object" ∨ p = .vnull) : handleMsg st p = st := by
  obtain ⟨a, r⟩ := st
  cases a <;> cases p <;> first
    | rfl
    | exact h.elim (fun h2 => absurd rfl h2) (fun h2 => JVal.noConfusion h2)

/-- A stream of ignored messages leaves the listener state untouched. -/
theorem processMsgs_ignored :
    ∀ (pre : List JVal) (st : LState),
      (∀ p ∈ pre, p.jsTypeof ≠ "object" ∨ p = .vnull) →
      processMsgs st pre = st := by
  intro pre
  induction pre with
  | nil => intro st _; rfl
  | cons p rest ih =>
    intro st h
    have h1 := handleMsg_ignored st p (h p (by simp))
    have hstep : processMsgs st (p :: rest) = processMsgs (handleMsg st p) rest := rfl
    rw [hstep, h1, ih st (fun q hq => h q (by simp [hq]))]

/-- C2 counterexample: a single object message of the wrong type
(`\x7btype: "other"\x7d`) tears the listener down without resolving it, so a
later well-formed authorization response is never seen: after delivering
the wrong-type message followed by a matching one, the promise is still
unresolved. The claim predicted the listener would survive the first
message and resolve on the second. -/
theorem C2_counterexample :
    (processMsgs initL [msgWrongType]).active = false ∧
    (processMsgs initL [msgWrongType, msgAuth]).resolved = none :=
  ⟨rfl, rfl⟩

/-- C2 amended: the listener is torn down exactly by the first message
whose payload is a non-null object, regardless of its `type`; it resolves
if and only if that message's `type` is `"authorization_response"`.
Messages whose payload is not a non-null object (primitives, which fail
the `typeof` guard, and `null`, on which reading `.type` throws) are
ignored without consuming the listener. -/
theorem C2_first_object_consumes_listener (pre : List JVal) (d : JVal)
    (hpre : ∀ p ∈ pre, p.jsTypeof ≠ "object" ∨ p = .vnull)
    (hobj : d.jsTypeof = "object") (hnn : d ≠ .vnull) :
    processMsgs initL pre = initL ∧
    (processMsgs initL (pre ++ [d])).active = false ∧
    ((processMsgs initL (pre ++ [d])).resolved = some d ↔
      d.getPropD "type" = .vstr "authorization_response") ∧
    (d.getPropD "type" ≠ .vstr "authorization_response" →
      (processMsgs initL (pre ++ [d])).resolved = none) := by
  have hp : processMsgs initL pre = initL := processMsgs_ignored pre initL hpre
  obtain ⟨fs, rfl⟩ : ∃ fs, d = .vobj fs := by
    cases d with
    | vobj fs => exact ⟨fs, rfl⟩
    | vnull => exact absurd rfl hnn
    | vundef => exact absurd hobj (show ¬("undefined" = "object") by decide)
    | vbool b => exact absurd hobj (show ¬("boolean" = "object") by decide)
    | vnum n => exact absurd hobj (show ¬("number" = "object") by decide)
    | vstr t => exact absurd hobj (show ¬("string" = "object") by decide)
  have hall : processMsgs initL (pre ++ [JVal.vobj fs]) = handleMsg initL (.vobj fs) := by
    unfold processMsgs at hp ⊢
    rw [List.foldl_append, hp]
    rfl
  have key : handleMsg initL (.vobj fs) =
      { active := false,
        resolved := if (match (JVal.vobj fs).getPropD "type" with
                        | .vstr t => t == "authorization_response"
                        | _ => false) then some (.vobj fs) else none } := rfl
  have hmatch : ((match (JVal.vobj fs).getPropD "type" with
                  | .vstr t => t == "authorization_response"
                  | _ => false) = true) ↔
      (JVal.vobj fs).getPropD "type" = .vstr "authorization_response" := by
    cases hgp : (JVal.vobj fs).getPropD "type" with
    | vstr t =>
      exact ⟨fun h => congrArg JVal.vstr (eq_of_beq h),
             fun h => by injection h with h; rw [h]; decide⟩
    | vundef => exact ⟨fun h => absurd h Bool.false_ne_true, fun h => JVal.noConfusion h⟩
    | vnull => exact ⟨fun h => absurd h Bool.false_ne_true, fun h => JVal.noConfusion h⟩
    | vbool b => exact ⟨fun h => absurd h Bool.false_ne_true, fun h => JVal.noConfusion h⟩
    | vnum n => exact ⟨fun h => absurd h Bool.false_ne_true, fun h => JVal.noConfusion h⟩
    | vobj gs => exact ⟨fun h => absurd h Bool.false_ne_true, fun h => JVal.noConfusion h⟩
  rw [hall, key]
  cases hb : (match (JVal.vobj fs).getPropD "type" with
              | .vstr t => t == "authorization_response"
              | _ => false) with
  | true =>
    have hm := hmatch.mp hb
    refine ⟨hp, rfl, ⟨fun _ => hm, fun _ => by simp⟩, fun hne => absurd hm hne⟩
  | false =>
    have hm : ¬((JVal.vobj fs).getPropD "type" = .vstr "authorization_response") := by
      intro hprop
      have := hmatch.mpr hprop
      rw [hb] at this
      exact Bool.noConfusion this
    refine ⟨hp, rfl, ⟨fun h => absurd h (by simp), fun hprop => absurd hprop hm⟩,
            fun _ => by simp⟩

/-- Witness for C2 amended: two ignored messages (a string and a `null`
payload) followed by a well-formed authorization response. -/
theorem C2_first_object_consumes_listener_witness :
    processMsgs initL [JVal.vstr "hello", JVal.vnull] = initL ∧
    (processMsgs initL ([JVal.vstr "hello", JVal.vnull] ++ [msgAuth])).active = false ∧
    ((processMsgs initL ([JVal.vstr "hello", JVal.vnull] ++ [msgAuth])).resolved = some msgAuth ↔
      msgAuth.getPropD "type" = .vstr "authorization_response") ∧
    (msgAuth.getPropD "type" ≠ .vstr "authorization_response" →
      (processMsgs initL ([JVal.vstr "hello", JVal.vnull] ++ [msgAuth])).resolved = none) := by
  have hpre : ∀ p ∈ [JVal.vstr "hello", JVal.vnull],
      p.jsTypeof ≠ "object" ∨ p = JVal.vnull := by
    intro p hp
    simp only [List.mem_cons, List.not_mem_nil, or_false] at hp
    rcases hp with rfl | rfl
    · exact Or.inl (show ¬("string" = "object") by decide)
    · exact Or.inr rfl
  exact C2_first_object_consumes_listener [JVal.vstr "hello", JVal.vnull] msgAuth
    hpre rfl (fun h => JVal.noConfusion h)

/-- If walking the table from a truthy starting value hits an absent
segment, the `request` walk throws Unknown Method (naming the full
requested method string). -/
theorem walkLinks_absent (method : String) :
    ∀ (segs : List String) (meta : JVal), meta.truthy = true →
      segmentAbsent meta segs = true →
      walkLinks method meta segs = .error (.unknownMethod method) := by
  intro segs
  induction segs with
  | nil =>
    intro meta _ habs
    exact absurd habs (by simp [segmentAbsent])
  | cons seg rest ih =>
    intro meta htr habs
    have hro : readProp meta seg = .ok (meta.getPropD seg) := by
      cases meta <;> first | rfl | exact absurd htr (by decide)
    have hstep : walkLinks method meta (seg :: rest) =
        if (meta.getPropD seg).truthy then walkLinks method (meta.getPropD seg) rest
        else .error (.unknownMethod method) := by
      simp only [walkLinks, hro]
    simp only [segmentAbsent] at habs
    cases htv : (meta.getPropD seg).truthy with
    | false => simp [hstep, htv]
    | true =>
      have habs' : segmentAbsent (meta.getPropD seg) rest = true := by
        revert habs htv
        cases meta.getPropD seg <;> intro habs htv <;>
          first | exact habs | exact absurd htv (by decide)
      simp only [hstep, htv, if_true]
      exact ih _ htv habs'

/-- C5: with a populated (truthy) route table, for every dotted method
string with a segment absent when walking the table segment by segment,
`request` throws Unknown Method carrying the full original method string.
The thrown error means `requestFn` returns no `HttpReq` descriptor: no
network call is performed. -/
theorem C5_unknown_method (s : State) (method : String) (d : JVal)
    (ps : List (String × JVal))
    (hlinks : s.links.truthy = true)
    (habs : segmentAbsent s.links (jsSplitDot method) = true) :
    requestFn s method d ps = .error (.unknownMethod method) := by
  have hw := walkLinks_absent method (jsSplitDot method) s.links hlinks habs
  simp [requestFn, hw]

/-- Witness for C5 at the populated example table and the dotted method
`"profile.write"`, whose second segment is absent. -/
theorem C5_unknown_method_witness :
    exampleLoggedIn.links.truthy = true ∧
    segmentAbsent exampleLoggedIn.links (jsSplitDot "profile.write") = true ∧
    requestFn exampleLoggedIn "profile.write" .vnull [] =
      .error (.unknownMethod "profile.write") :=
  ⟨rfl, rfl, C5_unknown_method exampleLoggedIn "profile.write" .vnull [] rfl rfl⟩

/-- A value from which `specFollow` reaches an object leaf is itself an
object. -/
theorem specFollow_src_obj :
    ∀ (segs : List String) (v : JVal) (fsleaf : List (String × JVal)),
      specFollow v segs = some (.vobj fsleaf) → ∃ gs, v = .vobj gs := by
  intro segs v fsleaf h
  cases segs with
  | nil =>
    simp only [specFollow, Option.some.injEq] at h
    exact ⟨fsleaf, h⟩
  | cons a r =>
    cases v with
    | vobj gs => exact ⟨gs, rfl⟩
    | vundef => exact Option.noConfusion h
    | vnull => exact Option.noConfusion h
    | vbool b => exact Option.noConfusion h
    | vnum n => exact Option.noConfusion h
    | vstr t => exact Option.noConfusion h

/-- When the spec-side segment walk reaches an object leaf, the code's
walk resolves exactly that leaf. -/
theorem walkLinks_follow (method : String) :
    ∀ (segs : List String) (meta : JVal) (leaf : List (String × JVal)),
      specFollow meta segs = some (.vobj leaf) →
      walkLinks method meta segs = .ok (.vobj leaf) := by
  intro segs
  induction segs with
  | nil =>
    intro meta leaf h
    simp only [specFollow, Option.some.injEq] at h
    rw [h]
    rfl
  | cons seg rest ih =>
    intro meta leaf h
    obtain ⟨fields, rfl⟩ : ∃ fields, meta = .vobj fields := by
      cases meta with
      | vobj fields => exact ⟨fields, rfl⟩
      | vundef => exact Option.noConfusion h
      | vnull => exact Option.noConfusion h
      | vbool b => exact Option.noConfusion h
      | vnum n => exact Option.noConfusion h
      | vstr t => exact Option.noConfusion h
    simp only [specFollow] at h
    cases hl : JVal.lookupField fields seg with
    | none => rw [hl] at h; exact Option.noConfusion h
    | some v =>
      rw [hl] at h
      obtain ⟨gs, rfl⟩ := specFollow_src_obj rest v leaf h
      have : walkLinks method (.vobj fields) (seg :: rest) =
          walkLinks method (.vobj gs) rest := by
        simp [walkLinks, readProp, JVal.getPropD, hl, JVal.truthy]
      rw [this]
      exact ih _ leaf h

/-- C6: for every route table and dotted method all of whose segments are
present (the spec-side walk `specFollow` reaches a `\x7bmethod, url\x7d` leaf
object), `request` resolves exactly that leaf and issues the HTTP request
with the leaf's verb and URL, the caller's query parameters appended in
order, and a Bearer Authorization header exactly when a token is held. -/
theorem C6_request_resolves_leaf (s : State) (method : String) (d : JVal)
    (ps : List (String × JVal)) (leaf : List (String × JVal)) (u verb : String)
    (hfollow : specFollow s.links (jsSplitDot method) = some (.vobj leaf))
    (hurl : JVal.lookupField leaf "url" = some (.vstr u))
    (hverb : JVal.lookupField leaf "method" = some (.vstr verb)) :
    requestFn s method d ps =
      .ok { verb := verb, url := u,
            query := ps.map (fun kv => (kv.1, kv.2.jsToString)),
            authHeader := if s.token.truthy then some ("Bearer " ++ s.token.jsToString)
                          else none,
            body := d } := by
  have hw := walkLinks_follow method (jsSplitDot method) s.links leaf hfollow
  simp [requestFn, hw, readProp, JVal.getPropD, hurl, hverb, JVal.jsToString]

/-- Witness for C6: resolving `"profile.read"` in the example table with a
held token. -/
theorem C6_request_resolves_leaf_witness :
    specFollow exampleLoggedIn.links (jsSplitDot "profile.read") =
      some (.vobj [("method", .vstr "GET"), ("url", .vstr "https://h.example/api/profile")]) ∧
    requestFn exampleLoggedIn "profile.read" .vnull [("limit", .vnum 5)] =
      .ok { verb := "GET", url := "https://h.example/api/profile",
            query := [("limit", "5")],
            authHeader := some "Bearer tok123", body := .vnull } := by
  refine ⟨rfl, ?_⟩
  have h := C6_request_resolves_leaf exampleLoggedIn "profile.read" .vnull
    [("limit", .vnum 5)]
    [("method", .vstr "GET"), ("url", .vstr "https://h.example/api/profile")]
    "https://h.example/api/profile" "GET" rfl rfl rfl
  rw [h]
  rfl

/-- Witness for C4 amended at the concrete codeless payload. -/
theorem C4_no_code_sends_undefined_witness :
    payloadNoCode.getPropD "code" = .vundef ∧
    (tokenRequestOf (initState "https://h.example")
        (payloadNoCode.getPropD "code")).assertion = "undefined" :=
  ⟨rfl, C4_no_code_sends_undefined (initState "https://h.example") payloadNoCode rfl⟩

/-- C3: under the documented discovery contract (a successful discovery
response carries a truthy `links` route table), `login` is all-or-nothing:
the session invariant (token set only together with a route table) is
preserved at every caller-observable point, a rejected login leaves the
state exactly as it was, and login resolves only when both the
token-exchange fetch and the discovery fetch succeeded — in which case
the token and the route table are stored together. -/
theorem C3_login_all_or_nothing {ε : Type} (s : State) (payload : JVal)
    (tokenServer : TokenRequest → Except ε JVal) (discResult : Except ε JVal)
    (hinv : sessionInv s)
    (hdisc : ∀ lj, discResult = .ok lj → (lj.getPropD "links").truthy = true) :
    sessionInv (loginRun s payload tokenServer discResult).2 ∧
    (∀ e, (loginRun s payload tokenServer discResult).1 = .error e →
      (loginRun s payload tokenServer discResult).2 = s) ∧
    (∀ v, (loginRun s payload tokenServer discResult).1 = .ok v →
      (loginRun s payload tokenServer discResult).2.token = v ∧
      (loginRun s payload tokenServer discResult).2.links.truthy = true ∧
      (∃ tj, tokenServer (tokenRequestOf s (payload.getPropD "code")) = .ok tj) ∧
      (∃ lj, discResult = .ok lj)) := by
  by_cases hp : nullish payload = true
  · have hrun : loginRun s payload tokenServer discResult = (.error (.tyErr "code"), s) := by
      unfold loginRun; rw [if_pos hp]
    rw [hrun]
    exact ⟨hinv, fun _ _ => rfl, fun v hv => Except.noConfusion hv⟩
  · have hrun0 : loginRun s payload tokenServer discResult =
        loginAfterExchange s
          (tokenServer (tokenRequestOf s (payload.getPropD "code"))) discResult := by
      unfold loginRun; rw [if_neg hp]
    rw [hrun0]
    cases hts : tokenServer (tokenRequestOf s (payload.getPropD "code")) with
    | error e =>
      have hrun : loginAfterExchange s (Except.error e) discResult = (.error (.net e), s) := rfl
      rw [hrun]
      exact ⟨hinv, fun _ _ => rfl, fun v hv => Except.noConfusion hv⟩
    | ok tj =>
      have hstep : loginAfterExchange s (Except.ok tj) discResult =
          if nullish tj = true then (.error (.tyErr "access_token"), s)
          else loginAfterToken s (tj.getPropD "access_token") discResult := rfl
      by_cases htj : nullish tj = true
      · rw [hstep, if_pos htj]
        exact ⟨hinv, fun _ _ => rfl, fun v hv => Except.noConfusion hv⟩
      · rw [hstep, if_neg htj]
        cases hdr : discResult with
        | error e =>
          have hrun : loginAfterToken s (tj.getPropD "access_token") (Except.error e) =
              (.error (.net e), s) := rfl
          rw [hrun]
          exact ⟨hinv, fun _ _ => rfl, fun v hv => Except.noConfusion hv⟩
        | ok lj =>
          have hl := hdisc lj hdr
          have hlj : ¬(nullish lj = true) := by
            intro hlj
            cases lj with
            | vnull => exact absurd hl (by decide)
            | vundef => exact absurd hl (by decide)
            | vbool b => exact Bool.noConfusion hlj
            | vnum n => exact Bool.noConfusion hlj
            | vstr t => exact Bool.noConfusion hlj
            | vobj gs => exact Bool.noConfusion hlj
          have hstep2 : loginAfterToken s (tj.getPropD "access_token")
              (Except.ok lj : Except ε JVal) =
              if nullish lj = true then
                (.error (.tyErr "links"), { s with token := tj.getPropD "access_token" })
              else
                (.ok (tj.getPropD "access_token"),
                 { s with token := tj.getPropD "access_token",
                          links := lj.getPropD "links" }) := rfl
          rw [hstep2, if_neg hlj]
          refine ⟨fun _ => hl, fun e he => Except.noConfusion he, fun v hv => ?_⟩
          exact ⟨Except.ok.inj hv, hl, ⟨tj, rfl⟩, ⟨lj, rfl⟩⟩

/-- Witness for C3: a full successful login at concrete inputs. -/
theorem C3_login_all_or_nothing_witness :
    sessionInv (loginRun (initState "https://h.example") msgAuth tokenOkServer discOk).2 ∧
    (∀ e, (loginRun (initState "https://h.example") msgAuth tokenOkServer discOk).1 = .error e →
      (loginRun (initState "https://h.example") msgAuth tokenOkServer discOk).2 =
        initState "https://h.example") ∧
    (∀ v, (loginRun (initState "https://h.example") msgAuth tokenOkServer discOk).1 = .ok v →
      (loginRun (initState "https://h.example") msgAuth tokenOkServer discOk).2.token = v ∧
      (loginRun (initState "https://h.example") msgAuth tokenOkServer discOk).2.links.truthy
        = true ∧
      (∃ tj, tokenOkServer
          (tokenRequestOf (initState "https://h.example") (msgAuth.getPropD "code")) = .ok tj) ∧
      (∃ lj, discOk = .ok lj)) :=
  C3_login_all_or_nothing (initState "https://h.example") msgAuth tokenOkServer discOk
    (fun h => h)
    (fun lj h => by rw [← Except.ok.inj h]; rfl)

/-- Against `serverGrowingTotal`, the loop invariant "the last-reported
total is one more than the accumulated count" re-establishes itself every
round, so the loop never stops. -/
theorem grow_diverges :
    ∀ (fuel : Nat) (anns : List Nat),
      fetchAllLoop serverGrowingTotal fuel anns (some (anns.length + 1)) = none := by
  intro fuel
  induction fuel with
  | zero => intro anns; rfl
  | succ f ih =>
    intro anns
    have hgo : goOnB anns.length (some (anns.length + 1)) = true := by
      simp [goOnB]
    rw [fetchAllLoop_cont serverGrowingTotal f anns _ hgo]
    have h1 : anns ++ (serverGrowingTotal anns.length).rows = anns ++ [0] := rfl
    have h2 : (serverGrowingTotal anns.length).total = (anns ++ [0]).length + 1 := by
      simp [serverGrowingTotal]
    rw [h1, h2, ih (anns ++ [0])]
    rfl

/-- C9 counterexample: `serverGrowingTotal` contributes one row to every
response whenever the accumulated count is below the reported total, yet
`fetchAll` never terminates against it, because each response also raises
the reported total beyond the new count. This refutes the claim's
positive half as stated. -/
theorem C9_counterexample :
    (∀ n, n < (serverGrowingTotal n).total → 1 ≤ (serverGrowingTotal n).rows.length) ∧
    ∀ fuel, fetchAllRun serverGrowingTotal fuel = none := by
  constructor
  · intro n _
    exact Nat.le_refl 1
  · intro fuel
    cases fuel with
    | zero => rfl
    | succ f =>
      have hgo : goOnB ([] : List Nat).length none = true := rfl
      rw [fetchAllRun, fetchAllLoop_cont serverGrowingTotal f [] none hgo]
      have h1 : ([] : List Nat) ++ (serverGrowingTotal ([] : List Nat).length).rows
          = [0] := rfl
      have h2 : (serverGrowingTotal ([] : List Nat).length).total
          = ([0] : List Nat).length + 1 := rfl
      rw [h1, h2, grow_diverges f [0]]
      rfl

/-- Termination of the `fetchAll` loop when the reported totals are
bounded by `T` and every response whose offset is below its own reported
total contributes at least one row. -/
theorem fetchAll_term_aux {α : Type} (server : Nat → SearchResult α) (T : Nat)
    (hT : ∀ n, (server n).total ≤ T)
    (hrows : ∀ n, n < (server n).total → 1 ≤ (server n).rows.length) :
    ∀ (fuel : Nat) (anns : List α) (totalSt : Option Nat),
      (∀ t, totalSt = some t → t ≤ T) →
      T + 2 ≤ fuel + anns.length → 2 ≤ fuel →
      (fetchAllLoop server fuel anns totalSt).isSome = true := by
  intro fuel
  induction fuel with
  | zero => intro anns totalSt _ _ h2; exact absurd h2 (by decide)
  | succ f ih =>
    intro anns totalSt htot hfl h2
    cases hgo : goOnB anns.length totalSt with
    | false =>
      rw [fetchAllLoop_stop server f anns totalSt hgo]
      rfl
    | true =>
      rw [fetchAllLoop_cont server f anns totalSt hgo, Option.isSome_map']
      by_cases hc : anns.length < (server anns.length).total
      · have hr := hrows _ hc
        have hcT := hT anns.length
        apply ih
        · intro t ht
          exact (Option.some.inj ht) ▸ hT anns.length
        · rw [List.length_append]
          omega
        · omega
      · have hle : (server anns.length).total ≤ anns.length := Nat.le_of_not_lt hc
        obtain ⟨f2, rfl⟩ : ∃ f2, f = f2 + 1 := ⟨f - 1, by omega⟩
        have hstop : goOnB (anns ++ (server anns.length).rows).length
            (some (server anns.length).total) = false := by
          simp only [goOnB, List.length_append]
          rw [decide_eq_false_iff_not]
          omega
        rw [fetchAllLoop_stop server f2 _ _ hstop]
        rfl

/-- If the very first search response has an empty page and a positive
total, the `fetchAll` loop re-issues the offset-0 request forever. -/
theorem fetchAll_stuck {α : Type} (server : Nat → SearchResult α)
    (hr : (server 0).rows = []) (ht : 0 < (server 0).total) :
    ∀ (fuel : Nat) (totalSt : Option Nat), goOnB 0 totalSt = true →
      fetchAllLoop server fuel [] totalSt = none := by
  intro fuel
  induction fuel with
  | zero => intro totalSt _; rfl
  | succ f ih =>
    intro totalSt hgo
    have hgo2 : goOnB ([] : List α).length totalSt = true := hgo
    rw [fetchAllLoop_cont server f [] totalSt hgo2]
    have h1 : ([] : List α) ++ (server ([] : List α).length).rows = [] := by
      simp only [List.length_nil, List.nil_append, hr]
    have h2 : (server ([] : List α).length).total = (server 0).total := by
      simp only [List.length_nil]
    rw [h1, h2, ih (some (server 0).total) (by simp [goOnB, ht])]
    rfl

/-- C9 amended: `fetchAll` terminates for every server behaviour whose
reported totals are bounded and in which each response contributes at
least one row whenever its offset is below its own reported total (the
boundedness condition is what the counterexample forces to be added);
conversely, against a server behaviour whose first page is empty with a
positive reported total, `fetchAll` never terminates — it re-issues the
request at offset 0 indefinitely. -/
theorem C9_fetchAll_termination :
    (∀ (α : Type) (server : Nat → SearchResult α) (T : Nat),
       (∀ n, (server n).total ≤ T) →
       (∀ n, n < (server n).total → 1 ≤ (server n).rows.length) →
       ∃ fuel, (fetchAllRun server fuel).isSome = true) ∧
    (∀ (α : Type) (server : Nat → SearchResult α),
       (server 0).rows = [] → 0 < (server 0).total →
       ∀ fuel, fetchAllRun server fuel = none) := by
  constructor
  · intro α server T hT hrows
    refine ⟨T + 2, ?_⟩
    apply fetchAll_term_aux server T hT hrows (T + 2) [] none
    · exact fun t ht => Option.noConfusion ht
    · simp
    · omega
  · intro α server hr ht fuel
    exact fetchAll_stuck server hr ht fuel none rfl

/-- Witness for C9 amended: the terminating half at the empty server
(totals bounded by 0), the diverging half at the empty-pages server. -/
theorem C9_fetchAll_termination_witness :
    (∃ fuel, (fetchAllRun server0 fuel).isSome = true) ∧
    fetchAllRun serverEmptyPages 5 = none :=
  ⟨C9_fetchAll_termination.1 Nat server0 0 (fun _ => Nat.le_refl 0)
      (fun n h => absurd h (Nat.not_lt_zero n)),
   C9_fetchAll_termination.2 Nat serverEmptyPages rfl (Nat.zero_lt_succ 4) 5⟩

end OAuthClient
